import Mathlib

set_option autoImplicit false

/-! Verification of the `treeSelect` dependency-tree memoizing cache.

This file is a shallow embedding of the JavaScript module that exports
`treeSelect` (a factory for cached selectors).  JavaScript values are
modelled by `JSVal`: primitives carry their payload (numbers are modelled
as integers, which covers every number appearing in the cache logic),
while objects, arrays and functions are modelled purely by identity
(a `RefKind` tag plus a numeric address), because the cache only ever
uses reference values through their identity and their `typeof` tag.
Mutation of the nested `WeakMap`/`Map` tree is modelled by explicit
state passing: every operation returns the updated tree. -/

/-- Kind of a JavaScript reference value, as far as `typeof` can tell:
plain object, array (also `typeof === 'object'`), or function. -/
inductive RefKind where
  | obj
  | arr
  | fn
deriving DecidableEq

/-- A JavaScript value, with reference values represented by identity only. -/
inductive JSVal where
  | null
  | undef
  | num (n : Int)
  | str (s : String)
  | bool (b : Bool)
  | ref (kind : RefKind) (addr : Nat)
deriving DecidableEq

/-- The JavaScript `typeof` operator (note `typeof null === 'object'`). -/
def typeofStr : JSVal → String
  | .null => "object"
  | .undef => "undefined"
  | .num _ => "number"
  | .str _ => "string"
  | .bool _ => "boolean"
  | .ref .fn _ => "function"
  | .ref _ _ => "object"

/-- JavaScript truthiness of a value. -/
def truthy : JSVal → Bool
  | .null => false
  | .undef => false
  | .num n => n != 0
  | .str s => s != ""
  | .bool b => b
  | .ref _ _ => true

/-- Source `isFunction`: `fn => fn && typeof fn === 'function'`
(coerced to a boolean, which is how its callers use it). -/
def isFunction (v : JSVal) : Bool :=
  truthy v && (typeofStr v == "function")

/-- Source `isObject`: `o => o && typeof o === 'object'`
(true for objects and arrays; false for functions, `null`, and primitives). -/
def isObject (v : JSVal) : Bool :=
  truthy v && (typeofStr v == "object")

/-- String form an element takes inside `Array.prototype.join`:
`null` and `undefined` render as the empty string, other primitives via
`ToString`.  The string form of a reference value depends on its contents,
which the identity-only embedding does not carry, so each reference kind
maps to a fixed representative string (a plain object always renders as
`[object Object]`; array and function forms are placeholders).  No claim
in this development depends on the string form of a reference value. -/
def jsJoinToString : JSVal → String
  | .null => ""
  | .undef => ""
  | .num n => toString n
  | .str s => s
  | .bool b => if b then "true" else "false"
  | .ref .obj _ => "[object Object]"
  | .ref .arr _ => "joined-array-contents"
  | .ref .fn _ => "function source text"

/-- Source `defaultGetCacheKey`: `( ...args ) => args.join()`, i.e. the
stringified extra arguments joined with the fixed separator `","`. -/
def defaultGetCacheKey (args : List JSVal) : String :=
  String.intercalate "," (args.map jsJoinToString)

/-- The active key-derivation of a cached selector: either the module's
`defaultGetCacheKey` (when `options.getCacheKey` is absent) or a
caller-supplied function.  Keeping the two cases distinct models the
identity comparison `getCacheKey === defaultGetCacheKey` in the source. -/
inductive KeyDerivation where
  | defaultKey
  | custom (f : List JSVal → String)

/-- Apply the active key-derivation to the extra arguments. -/
def runKeyDerivation : KeyDerivation → List JSVal → String
  | .defaultKey, args => defaultGetCacheKey args
  | .custom f, args => f args

/-- The source test `getCacheKey === defaultGetCacheKey`. -/
def keyIsDefault : KeyDerivation → Bool
  | .defaultKey => true
  | .custom _ => false

/-- A key actually used in a weak level of the tree: either the canonical
`NULLISH_KEY` sentinel object (substituted for `null`/`undefined` by
`key || NULLISH_KEY`) or the identity of a caller-supplied reference. -/
inductive WKey where
  | nullish
  | keyRef (kind : RefKind) (addr : Nat)
deriving DecidableEq

/-- Source guard in `insertDependentKey`:
`key != null && Object( key ) !== key` throws, so a dependent key is valid
exactly when it is nullish or a reference value. -/
def validDepKey : JSVal → Bool
  | .null => true
  | .undef => true
  | .ref _ _ => true
  | _ => false

/-- Source `const weakMapKey = key || NULLISH_KEY`: after the validity
guard the key is a reference (always truthy, kept as itself) or nullish
(replaced by the sentinel). -/
def toWKey : JSVal → WKey
  | .ref k a => .keyRef k a
  | _ => .nullish

/-- A node of the cache tree.  `wmap` models a `WeakMap` level keyed by
object identity; `smap` models a leaf `Map`.  A JavaScript `Map` keeps one
insertion-ordered entry list over keys of any type; since string keys and
object keys can never collide under SameValueZero, splitting its entries
into a string-keyed list (results) and an object-keyed list (sub-levels,
reachable only through inconsistent dependents lengths) preserves the
observable behaviour of `get`, `has` and `set`. -/
inductive CacheNode where
  | wmap (entries : List (WKey × CacheNode))
  | smap (strEntries : List (String × JSVal)) (objEntries : List (WKey × CacheNode))

/-- Association-list lookup (JavaScript `Map.prototype.get` on the model). -/
def alistGet {α : Type} {β : Type} [DecidableEq α] : List (α × β) → α → Option β
  | [], _ => none
  | e :: t, k => if e.1 = k then some e.2 else alistGet t k

/-- Association-list update (JavaScript `Map.prototype.set`: overwrite in
place when the key is present, append otherwise). -/
def alistSet {α : Type} {β : Type} [DecidableEq α] : List (α × β) → α → β → List (α × β)
  | [], k, v => [(k, v)]
  | e :: t, k, v => if e.1 = k then (k, v) :: t else e :: alistSet t k v

/-- The errors the cached selector can raise. -/
inductive JSError where
  /-- `TypeError` from `treeSelect` when a non-function argument is passed
  (development mode only). -/
  | invalidArgument
  /-- `Error('Do not pass objects as arguments to a treeSelector')`
  (development mode, default key derivation only). -/
  | cacheKeyError
  /-- `TypeError('key must be an object, null, or undefined')` from
  `insertDependentKey`. -/
  | invalidDependentKey
  /-- `TypeError` raised by `WeakMap.prototype.set` when given a primitive
  key (reachable when the leaf table is the root `WeakMap` itself). -/
  | weakMapKeyError
deriving DecidableEq

/-- Lookup of a (substituted) dependent key in the current level,
`map.get( weakMapKey )` in `insertDependentKey`. -/
def nodeGet : CacheNode → WKey → Option CacheNode
  | .wmap es, k => alistGet es k
  | .smap _ os, k => alistGet os k

/-- Insertion of a sub-level under a dependent key,
`map.set( weakMapKey, newMap )` in `insertDependentKey`. -/
def nodeSet : CacheNode → WKey → CacheNode → CacheNode
  | .wmap es, k, c => .wmap (alistSet es k c)
  | .smap ss os, k, c => .smap ss (alistSet os k c)

/-- `leafCache.has( key ) / leafCache.get( key )` combined: the stored
result under a string key, if any.  On a `WeakMap` node this is `none`,
because `WeakMap.prototype.has`/`get` with a primitive key return
`false`/`undefined` without throwing. -/
def leafGet : CacheNode → String → Option JSVal
  | .wmap _, _ => none
  | .smap ss _, k => alistGet ss k

/-- `leafCache.set( key, value )`: stores the result under the string key
on a `Map` node; on a `WeakMap` node `WeakMap.prototype.set` throws a
`TypeError` because a primitive cannot be a weak map key. -/
def leafSet : CacheNode → String → JSVal → Except JSError CacheNode
  | .wmap _, _, _ => .error .weakMapKeyError
  | .smap ss os, k, v => .ok (.smap (alistSet ss k v) os)

/-- The node `insertDependentKey` creates on a miss:
`currentIndex === arr.length - 1 ? new Map() : new WeakMap()`, i.e. a leaf
`Map` when no dependents remain after the current one, a `WeakMap` level
otherwise. -/
def freshNode (rest : List JSVal) : CacheNode :=
  if rest.isEmpty then .smap [] [] else .wmap []

/-- The level descended into by `insertDependentKey`: the existing
sub-level when the key is present, a freshly created node otherwise. -/
def childFor (node : CacheNode) (wk : WKey) (rest : List JSVal) : CacheNode :=
  match nodeGet node wk with
  | some c => c
  | none => freshNode rest

/-- Outcome of one invocation of the cached selector.  `computed` records
whether the computation function (`selector( dependents, ...args )`, line
95 of the source) was invoked during the call; it is the observable that
the memoization claims are about. -/
inductive CallOutcome where
  | ok (value : JSVal) (computed : Bool)
  | err (e : JSError) (computed : Bool)
deriving DecidableEq

/-- Stitch the updated sub-level back into the current level after a
recursive step of the walk (in the source this is the in-place mutation
of the nested maps). -/
def stepResult (node : CacheNode) (wk : WKey) (r : CallOutcome × CacheNode) :
    CallOutcome × CacheNode :=
  (r.1, nodeSet node wk r.2)

/-- The body of the cached selector from the tree walk on: the
`dependents.reduce( insertDependentKey, cache )` walk followed by the leaf
lookup / store.  `compute` is the value `selector( dependents, ...args )`
would produce; it is only marked as computed in the branch where the
source actually invokes the selector.  Returns the outcome together with
the updated cache tree (also on failure, since levels created before a
failing step remain). -/
def callCore (compute : JSVal) (key : String) :
    CacheNode → List JSVal → CallOutcome × CacheNode
  | node, [] =>
    match leafGet node key with
    | some v => (.ok v false, node)
    | none =>
      match leafSet node key compute with
      | .ok node2 => (.ok compute true, node2)
      | .error e => (.err e true, node)
  | node, d :: rest =>
    if validDepKey d then
      stepResult node (toWKey d) (callCore compute key (childFor node (toWKey d) rest) rest)
    else
      (.err .invalidDependentKey false, node)

/-- The development-mode guard at lines 79-83 of the source:
`getCacheKey === defaultGetCacheKey && args.some( isObject )`, evaluated
only when `process.env.NODE_ENV !== 'production'`. -/
def devKeyGuard (devMode : Bool) (kd : KeyDerivation) (args : List JSVal) : Bool :=
  devMode && keyIsDefault kd && args.any isObject

/-- What `treeSelect` closes over: the caller-supplied dependents
function, the computation function (`selector`), and the active key
derivation (`options.getCacheKey`, defaulting to `defaultGetCacheKey`).
The state type `S` is opaque to the cache; state is only ever passed to
`getDependents`. -/
structure SelectorConfig (S : Type) where
  getDependents : S → List JSVal → List JSVal
  selector : List JSVal → List JSVal → JSVal
  keyDerivation : KeyDerivation

/-- One invocation `cachedSelector( state, ...args )` (source lines
76-98): obtain the dependents, run the development-mode default-key
guard (which throws before touching the cache tree), walk the tree and
look up or store the result.  `devMode` models
`process.env.NODE_ENV !== 'production'`. -/
def cachedSelectorCall {S : Type} (devMode : Bool) (cfg : SelectorConfig S)
    (cache : CacheNode) (state : S) (args : List JSVal) : CallOutcome × CacheNode :=
  let dependents := cfg.getDependents state args
  if devKeyGuard devMode cfg.keyDerivation args then
    (.err .cacheKeyError false, cache)
  else
    callCore (cfg.selector dependents args) (runKeyDerivation cfg.keyDerivation args)
      cache dependents

/-- `cachedSelector.clearCache`: `cache = new WeakMap()`, replacing the
whole root cache with a fresh empty one regardless of its contents. -/
def clearCache (_cache : CacheNode) : CacheNode :=
  .wmap []

/-- The construction-time guard of `treeSelect` (source lines 64-70):
in development mode, throw a `TypeError` unless both the dependents
function and the computation function satisfy `isFunction`; in production
the guard is compiled out. -/
def treeSelectCheck (devMode : Bool) (getDependents selector : JSVal) :
    Except JSError Unit :=
  if devMode && (!(isFunction getDependents) || !(isFunction selector)) then
    .error .invalidArgument
  else
    .ok ()

/-- The cache tree produced by walking (and creating where missing) the
weak levels for a strict prefix of the dependents, without writing any
leaf entry.  This is exactly what remains of a call that fails at the
first position after the prefix: every node created along a strict prefix
is an empty `WeakMap` level. -/
def buildLevels (node : CacheNode) : List JSVal → CacheNode
  | [] => node
  | d :: rest =>
    match nodeGet node (toWKey d) with
    | some c => nodeSet node (toWKey d) (buildLevels c rest)
    | none => nodeSet node (toWKey d) (buildLevels (.wmap []) rest)

/-- Structural invariant of the tree for a selector with `n` dependents:
below this node come exactly `n` levels, every non-last level is an
identity-keyed weakly-referencing `WeakMap`, and the level at the last
dependent position is a string-keyed strongly-referencing `Map` holding
no sub-levels. -/
def depthOk : Nat → CacheNode → Bool
  | 0, .smap _ os => os.isEmpty
  | n + 1, .wmap es => es.all (fun e => depthOk n e.2)
  | _, _ => false

/-- Whether a node is a `WeakMap` (the root cache always is). -/
def isWMap : CacheNode → Bool
  | .wmap _ => true
  | .smap _ _ => false

/-- Whether the computation function was invoked during the call. -/
def outcomeComputed : CallOutcome → Bool
  | .ok _ b => b
  | .err _ b => b

/-- Nullish values (`null` and `undefined`). -/
def isNullish : JSVal → Bool
  | .null => true
  | .undef => true
  | _ => false

/-- Two dependent values that land on the same branch for trivial
reasons: they are the same value, or both are nullish (both replaced by
the `NULLISH_KEY` sentinel). -/
def nullishEqB (a b : JSVal) : Bool :=
  a == b || (isNullish a && isNullish b)

/-- Pointwise `nullishEqB` on two dependents sequences. -/
def depsEquiv : List JSVal → List JSVal → Bool
  | [], [] => true
  | a :: as, b :: bs => nullishEqB a b && depsEquiv as bs
  | _, _ => false

lemma alistGet_set_self {α : Type} {β : Type} [DecidableEq α]
    (l : List (α × β)) (k : α) (v : β) :
    alistGet (alistSet l k v) k = some v := by
  induction l with
  | nil => simp [alistGet, alistSet]
  | cons e t ih =>
    by_cases h : e.1 = k
    · simp [alistSet, alistGet, h]
    · simp [alistSet, alistGet, h, ih]

lemma alistGet_set_ne {α : Type} {β : Type} [DecidableEq α]
    (l : List (α × β)) (k k' : α) (v : β) (hne : k ≠ k') :
    alistGet (alistSet l k v) k' = alistGet l k' := by
  induction l with
  | nil => simp [alistGet, alistSet, hne]
  | cons e t ih =>
    by_cases h : e.1 = k
    · simp [alistSet, alistGet, h, hne]
    · simp [alistSet, alistGet, h, ih]

lemma nodeGet_set_self (node : CacheNode) (k : WKey) (c : CacheNode) :
    nodeGet (nodeSet node k c) k = some c := by
  cases node <;> simp [nodeGet, nodeSet, alistGet_set_self]

lemma callCore_hit (c c' : JSVal) (k : String) :
    ∀ (deps : List JSVal) (node : CacheNode) (v : JSVal) (b : Bool),
      (callCore c k node deps).1 = .ok v b →
      (callCore c' k (callCore c k node deps).2 deps).1 = .ok v false := by
  intro deps
  induction deps with
  | nil =>
    intro node v b h
    cases hg : leafGet node k with
    | some v0 =>
      simp only [callCore, hg] at h ⊢
      cases h
      simp
    | none =>
      cases node with
      | wmap es => simp [callCore, leafGet, leafSet] at h
      | smap ss os =>
        simp only [callCore, hg, leafSet] at h ⊢
        cases h
        simp [leafGet, alistGet_set_self]
  | cons d rest ih =>
    intro node v b h
    by_cases hv : validDepKey d = true
    · simp only [callCore, hv, if_true, stepResult] at h ⊢
      rw [childFor, nodeGet_set_self]
      exact ih (childFor node (toWKey d) rest) v b h
    · simp [callCore, hv] at h

lemma callCore_ok_valid (c : JSVal) (k : String) :
    ∀ (deps : List JSVal) (node : CacheNode) (v : JSVal) (b : Bool),
      (callCore c k node deps).1 = .ok v b →
      deps.all validDepKey = true := by
  intro deps
  induction deps with
  | nil => intro node v b _; rfl
  | cons d rest ih =>
    intro node v b h
    by_cases hv : validDepKey d = true
    · simp only [callCore, hv, if_true, stepResult] at h
      have hrest := ih _ _ _ h
      simp only [List.all_cons, hv, Bool.true_and]
      exact hrest
    · simp [callCore, hv] at h

lemma callCore_fresh (c : JSVal) (k : String) :
    ∀ (deps : List JSVal), deps.all validDepKey = true →
      (callCore c k (freshNode deps) deps).1 = .ok c true := by
  intro deps
  induction deps with
  | nil => simp [callCore, freshNode, leafGet, alistGet, leafSet]
  | cons d rest ih =>
    intro hall
    rw [List.all_cons, Bool.and_eq_true] at hall
    simp only [callCore, hall.1, if_true, stepResult, freshNode, List.isEmpty_cons]
    rw [childFor]
    simp only [nodeGet, alistGet]
    exact ih hall.2

lemma callCore_not_cacheKey (c : JSVal) (k : String) :
    ∀ (deps : List JSVal) (node : CacheNode) (b : Bool),
      (callCore c k node deps).1 ≠ .err .cacheKeyError b := by
  intro deps
  induction deps with
  | nil =>
    intro node b
    cases hg : leafGet node k with
    | some v0 => simp [callCore, hg]
    | none =>
      cases node with
      | wmap es => simp [callCore, leafGet, leafSet]
      | smap ss os => simp [callCore, hg, leafSet]
  | cons d rest ih =>
    intro node b
    by_cases hv : validDepKey d = true
    · simp only [callCore, hv, if_true, stepResult]
      exact ih _ b
    · simp [callCore, hv]

lemma callCore_nil_wmap (c : JSVal) (k : String) (es : List (WKey × CacheNode)) :
    callCore c k (.wmap es) [] = (.err .weakMapKeyError true, .wmap es) := by
  simp [callCore, leafGet, leafSet]

lemma depsEquiv_isEmpty :
    ∀ (as bs : List JSVal), depsEquiv as bs = true → as.isEmpty = bs.isEmpty := by
  intro as bs h
  cases as <;> cases bs <;> simp_all [depsEquiv]

lemma nullishEqB_elim (a b : JSVal) (h : nullishEqB a b = true) :
    a = b ∨ (isNullish a = true ∧ isNullish b = true) := by
  simp only [nullishEqB, Bool.or_eq_true, beq_iff_eq, Bool.and_eq_true] at h
  exact h

lemma toWKey_nullish (a : JSVal) (h : isNullish a = true) : toWKey a = .nullish := by
  cases a <;> simp_all [isNullish, toWKey]

lemma validDepKey_nullish (a : JSVal) (h : isNullish a = true) : validDepKey a = true := by
  cases a <;> simp_all [isNullish, validDepKey]

lemma childFor_congr (node : CacheNode) (wk : WKey) (as bs : List JSVal)
    (h : as.isEmpty = bs.isEmpty) :
    childFor node wk as = childFor node wk bs := by
  cases nodeGet node wk <;> simp_all [childFor, freshNode]

lemma callCore_depsEquiv (c : JSVal) (k : String) :
    ∀ (d1 d2 : List JSVal) (node : CacheNode), depsEquiv d1 d2 = true →
      callCore c k node d1 = callCore c k node d2 := by
  intro d1
  induction d1 with
  | nil => intro d2 node h; cases d2 <;> simp_all [depsEquiv]
  | cons a as ih =>
    intro d2 node h
    cases d2 with
    | nil => simp [depsEquiv] at h
    | cons b bs =>
      rw [depsEquiv, Bool.and_eq_true] at h
      have hchild : childFor node (toWKey a) as = childFor node (toWKey a) bs :=
        childFor_congr _ _ _ _ (depsEquiv_isEmpty _ _ h.2)
      rcases nullishEqB_elim a b h.1 with hab | ⟨hna, hnb⟩
      · subst hab
        simp only [callCore, hchild, ih _ _ h.2]
      · have hva := validDepKey_nullish a hna
        have hvb := validDepKey_nullish b hnb
        have hw : toWKey a = toWKey b := by
          rw [toWKey_nullish a hna, toWKey_nullish b hnb]
        have hchild' : childFor node (toWKey b) as = childFor node (toWKey b) bs := by
          rw [← hw]; exact hchild
        simp only [callCore, hva, hvb, if_true, hw, hchild', ih _ _ h.2]

lemma callCore_invalid (c : JSVal) (k : String) :
    ∀ (deps : List JSVal) (node : CacheNode) (i : Nat),
      i < deps.length →
      validDepKey (deps.getD i .null) = false →
      (∀ j, j < i → validDepKey (deps.getD j .null) = true) →
      callCore c k node deps = (.err .invalidDependentKey false, buildLevels node (deps.take i)) := by
  intro deps
  induction deps with
  | nil => intro node i hi; simp at hi
  | cons d rest ih =>
    intro node i hi hbad hpre
    cases i with
    | zero =>
      simp only [List.getD_cons_zero] at hbad
      simp [callCore, hbad, List.take_zero, buildLevels]
    | succ i' =>
      have hvd : validDepKey d = true := by
        have := hpre 0 (Nat.succ_pos i')
        simpa using this
      have hi' : i' < rest.length := by simpa using hi
      have hbad' : validDepKey (rest.getD i' .null) = false := by simpa using hbad
      have hpre' : ∀ j, j < i' → validDepKey (rest.getD j .null) = true := by
        intro j hj
        have := hpre (j + 1) (Nat.succ_lt_succ hj)
        simpa using this
      have hrec := ih (childFor node (toWKey d) rest) i' hi' hbad' hpre'
      have hne : rest ≠ [] := by
        intro hr; rw [hr] at hi'; simp at hi'
      simp only [callCore, hvd, if_true, stepResult, hrec, List.take_succ_cons, buildLevels]
      cases hg : nodeGet node (toWKey d) with
      | some cc => simp [childFor, hg]
      | none =>
        have : freshNode rest = .wmap [] := by
          cases rest with
          | nil => exact absurd rfl hne
          | cons x xs => simp [freshNode]
        simp [childFor, hg, this]

lemma alistGet_mem_all {α : Type} {β : Type} [DecidableEq α] (P : β → Bool) :
    ∀ (l : List (α × β)) (k : α) (v : β),
      alistGet l k = some v → l.all (fun e => P e.2) = true → P v = true := by
  intro l
  induction l with
  | nil => intro k v h; simp [alistGet] at h
  | cons e t ih =>
    intro k v h hall
    rw [List.all_cons, Bool.and_eq_true] at hall
    by_cases he : e.1 = k
    · simp only [alistGet, he, if_true, Option.some.injEq] at h
      rw [← h]; exact hall.1
    · simp only [alistGet, he, if_false] at h
      exact ih k v h hall.2

lemma alistSet_all {α : Type} {β : Type} [DecidableEq α] (P : β → Bool) :
    ∀ (l : List (α × β)) (k : α) (v : β),
      l.all (fun e => P e.2) = true → P v = true →
      (alistSet l k v).all (fun e => P e.2) = true := by
  intro l
  induction l with
  | nil => intro k v _ hv; simp [alistSet, hv]
  | cons e t ih =>
    intro k v hall hv
    rw [List.all_cons, Bool.and_eq_true] at hall
    by_cases he : e.1 = k
    · simp [alistSet, he, hv, hall.2]
    · simp [alistSet, he, hall.1, ih k v hall.2 hv]

lemma depthOk_fresh (rest : List JSVal) :
    depthOk rest.length (freshNode rest) = true := by
  cases rest <;> simp [freshNode, depthOk]

lemma callCore_depth (c : JSVal) (k : String) :
    ∀ (deps : List JSVal) (node : CacheNode),
      deps.all validDepKey = true →
      depthOk deps.length node = true →
      (∃ v b, (callCore c k node deps).1 = CallOutcome.ok v b) ∧
        depthOk deps.length (callCore c k node deps).2 = true := by
  intro deps
  induction deps with
  | nil =>
    intro node _ hd
    cases node with
    | wmap es => simp [depthOk] at hd
    | smap ss os =>
      simp only [List.length_nil, depthOk] at hd
      cases hg : alistGet ss k with
      | some v =>
        refine ⟨⟨v, false, ?_⟩, ?_⟩ <;>
          simp [callCore, leafGet, hg, depthOk, hd]
      | none =>
        refine ⟨⟨c, true, ?_⟩, ?_⟩ <;>
          simp [callCore, leafGet, hg, leafSet, depthOk, hd]
  | cons d rest ih =>
    intro node hall hd
    rw [List.all_cons, Bool.and_eq_true] at hall
    cases node with
    | smap ss os => simp [depthOk] at hd
    | wmap es =>
      simp only [List.length_cons, depthOk] at hd
      have hstep : ∀ ch : CacheNode,
          childFor (CacheNode.wmap es) (toWKey d) rest = ch →
          depthOk rest.length ch = true →
          (∃ v b, (callCore c k (CacheNode.wmap es) (d :: rest)).1 = CallOutcome.ok v b) ∧
            depthOk (d :: rest).length (callCore c k (CacheNode.wmap es) (d :: rest)).2 = true := by
        intro ch hcf hch
        obtain ⟨⟨v, b, hout⟩, hd2⟩ := ih ch hall.2 hch
        constructor
        · exact ⟨v, b, by simp only [callCore, hall.1, if_true, stepResult, hcf, hout]⟩
        · simp only [callCore, hall.1, if_true, stepResult, hcf, nodeSet, List.length_cons, depthOk]
          exact alistSet_all _ es (toWKey d) _ hd hd2
      cases hg : nodeGet (CacheNode.wmap es) (toWKey d) with
      | some ch =>
        exact hstep ch (by simp [childFor, hg])
          (alistGet_mem_all _ es (toWKey d) ch hg hd)
      | none =>
        exact hstep (freshNode rest) (by simp [childFor, hg]) (depthOk_fresh rest)

lemma callCore_divergent (c1 c2 : JSVal) (k1 k2 : String) :
    ∀ (p : Nat) (deps1 deps2 : List JSVal),
      deps1.all validDepKey = true → deps2.all validDepKey = true →
      deps1.length = deps2.length →
      p < deps2.length →
      (∀ j, j < p → toWKey (deps1.getD j .null) = toWKey (deps2.getD j .null)) →
      toWKey (deps1.getD p .null) ≠ toWKey (deps2.getD p .null) →
      (callCore c2 k2 (callCore c1 k1 (.wmap []) deps1).2 deps2).1 = .ok c2 true := by
  intro p
  induction p with
  | zero =>
    intro deps1 deps2 h1 h2 hlen hp hpre hdiff
    cases deps2 with
    | nil => simp at hp
    | cons d2 r2 =>
      cases deps1 with
      | nil => simp at hlen
      | cons d1 r1 =>
        rw [List.all_cons, Bool.and_eq_true] at h1 h2
        simp only [List.getD_cons_zero] at hdiff
        simp only [callCore, h1.1, h2.1, if_true, stepResult, nodeSet]
        have hcf2 : childFor (CacheNode.wmap (alistSet []
            (toWKey d1) (callCore c1 k1 (childFor (CacheNode.wmap []) (toWKey d1) r1) r1).2))
            (toWKey d2) r2 = freshNode r2 := by
          simp [childFor, nodeGet, alistSet, alistGet, hdiff]
        rw [hcf2]
        exact callCore_fresh c2 k2 r2 h2.2
  | succ p' ih =>
    intro deps1 deps2 h1 h2 hlen hp hpre hdiff
    cases deps2 with
    | nil => simp at hp
    | cons d2 r2 =>
      cases deps1 with
      | nil => simp at hlen
      | cons d1 r1 =>
        rw [List.all_cons, Bool.and_eq_true] at h1 h2
        have hp' : p' < r2.length := by simpa using hp
        have hlen' : r1.length = r2.length := by simpa using hlen
        have hw : toWKey d1 = toWKey d2 := by
          have := hpre 0 (Nat.succ_pos p')
          simpa using this
        have hr1 : r1 ≠ [] := by
          intro hr
          rw [hr] at hlen'
          simp at hlen'
          omega
        have hfr : freshNode r1 = CacheNode.wmap [] := by
          cases r1 with
          | nil => exact absurd rfl hr1
          | cons x xs => simp [freshNode]
        have hpre' : ∀ j, j < p' → toWKey (r1.getD j .null) = toWKey (r2.getD j .null) := by
          intro j hj
          have := hpre (j + 1) (Nat.succ_lt_succ hj)
          simpa using this
        have hdiff' : toWKey (r1.getD p' .null) ≠ toWKey (r2.getD p' .null) := by
          simpa using hdiff
        have hrec := ih r1 r2 h1.2 h2.2 hlen' hp' hpre' hdiff'
        simp only [callCore, h1.1, h2.1, if_true, stepResult, nodeSet]
        have hcf1 : childFor (CacheNode.wmap []) (toWKey d1) r1 = CacheNode.wmap [] := by
          simp [childFor, nodeGet, alistGet, hfr]
        rw [hcf1]
        have hcf2 : childFor (CacheNode.wmap (alistSet [] (toWKey d1)
            (callCore c1 k1 (CacheNode.wmap []) r1).2)) (toWKey d2) r2
            = (callCore c1 k1 (CacheNode.wmap []) r1).2 := by
          simp [childFor, nodeGet, alistSet, alistGet, ← hw]
        rw [hcf2]
        exact hrec

lemma depsEquiv_symm : ∀ (a b : List JSVal), depsEquiv a b = true → depsEquiv b a = true := by
  intro a
  induction a with
  | nil => intro b h; cases b <;> simp_all [depsEquiv]
  | cons x xs ih =>
    intro b h
    cases b with
    | nil => simp [depsEquiv] at h
    | cons y ys =>
      rw [depsEquiv, Bool.and_eq_true] at h ⊢
      refine ⟨?_, ih ys h.2⟩
      rcases nullishEqB_elim x y h.1 with hxy | ⟨hx, hy⟩
      · simp [nullishEqB, hxy]
      · simp [nullishEqB, hx, hy]

lemma cachedSelectorCall_guard_true {S : Type} (dev : Bool) (cfg : SelectorConfig S)
    (cache : CacheNode) (s : S) (args : List JSVal)
    (h : devKeyGuard dev cfg.keyDerivation args = true) :
    cachedSelectorCall dev cfg cache s args = (.err .cacheKeyError false, cache) := by
  simp [cachedSelectorCall, h]

lemma cachedSelectorCall_guard_false {S : Type} (dev : Bool) (cfg : SelectorConfig S)
    (cache : CacheNode) (s : S) (args : List JSVal)
    (h : devKeyGuard dev cfg.keyDerivation args = false) :
    cachedSelectorCall dev cfg cache s args
      = callCore (cfg.selector (cfg.getDependents s args) args)
          (runKeyDerivation cfg.keyDerivation args) cache (cfg.getDependents s args) := by
  simp [cachedSelectorCall, h]

lemma cachedSelectorCall_ok_guard {S : Type} (dev : Bool) (cfg : SelectorConfig S)
    (cache : CacheNode) (s : S) (args : List JSVal) (v : JSVal) (b : Bool)
    (h : (cachedSelectorCall dev cfg cache s args).1 = .ok v b) :
    devKeyGuard dev cfg.keyDerivation args = false := by
  cases hg : devKeyGuard dev cfg.keyDerivation args with
  | false => rfl
  | true =>
    rw [cachedSelectorCall_guard_true dev cfg cache s args hg] at h
    simp at h

lemma cachedSelectorCall_second_hit {S : Type} (dev : Bool) (cfg : SelectorConfig S)
    (cache : CacheNode) (s s' : S) (args args' : List JSVal) (v : JSVal) (b : Bool)
    (hdeps : cfg.getDependents s args = cfg.getDependents s' args')
    (hkey : runKeyDerivation cfg.keyDerivation args = runKeyDerivation cfg.keyDerivation args')
    (hguard' : devKeyGuard dev cfg.keyDerivation args' = false)
    (h1 : (cachedSelectorCall dev cfg cache s args).1 = .ok v b) :
    (cachedSelectorCall dev cfg (cachedSelectorCall dev cfg cache s args).2 s' args').1
      = .ok v false := by
  have hg : devKeyGuard dev cfg.keyDerivation args = false :=
    cachedSelectorCall_ok_guard dev cfg cache s args v b h1
  rw [cachedSelectorCall_guard_false dev cfg cache s args hg] at h1
  rw [cachedSelectorCall_guard_false dev cfg cache s args hg,
    cachedSelectorCall_guard_false dev cfg _ s' args' hguard']
  rw [← hdeps, ← hkey]
  exact callCore_hit _ _ _ _ cache v b h1

/-- Selector configuration used to instantiate C1: one object dependent,
constant computation, default key derivation. -/
def cfg1W : SelectorConfig Unit :=
  ⟨fun _ _ => [JSVal.ref .obj 0], fun _ _ => JSVal.num 42, KeyDerivation.defaultKey⟩

/-- Selector configuration whose dependents function returns the empty
sequence (so the leaf table is the root `WeakMap` itself). -/
def cfg1E : SelectorConfig Unit :=
  ⟨fun _ _ => [], fun _ _ => JSVal.num 1, KeyDerivation.defaultKey⟩

/-- C1, amended: for every cached selector and every pair of calls whose
dependents sequences contain the same object identities at every position
and whose extra arguments derive the same leaf key string, provided the
first call returns a Result successfully and the second call is not
rejected by the development-mode default-key check, the computation
function is invoked at most once across the two calls (here: not at all
during the second call), and the second call returns the identical stored
Result as the first without recomputation. -/
theorem c1_memoization {S : Type} (dev : Bool) (cfg : SelectorConfig S)
    (cache : CacheNode) (s s' : S) (args args' : List JSVal) (v : JSVal) (b : Bool)
    (hdeps : cfg.getDependents s args = cfg.getDependents s' args')
    (hkey : runKeyDerivation cfg.keyDerivation args = runKeyDerivation cfg.keyDerivation args')
    (hguard' : devKeyGuard dev cfg.keyDerivation args' = false)
    (h1 : (cachedSelectorCall dev cfg cache s args).1 = .ok v b) :
    (cachedSelectorCall dev cfg (cachedSelectorCall dev cfg cache s args).2 s' args').1
      = .ok v false :=
  cachedSelectorCall_second_hit dev cfg cache s s' args args' v b hdeps hkey hguard' h1

/-- C1 witness: a concrete selector with one object dependent; the first
call computes and stores 42, the second identical call returns it without
recomputation. -/
theorem c1_memoization_witness :
    (cachedSelectorCall true cfg1W
        (cachedSelectorCall true cfg1W (.wmap []) () [JSVal.str "a"]).2 () [JSVal.str "a"]).1
      = .ok (JSVal.num 42) false :=
  c1_memoization true cfg1W (.wmap []) () () [JSVal.str "a"] [JSVal.str "a"]
    (JSVal.num 42) true rfl rfl (by decide) (by decide)

/-- C1 counterexample: with a dependents function returning the empty
sequence (dependents identical at every position, vacuously, and equal
leaf keys), the leaf table is the root `WeakMap`, so every call invokes
the computation function and then fails in `leafCache.set`; across two
such calls the computation function runs twice, contradicting the claimed
"at most once", and the second call returns no stored Result. -/
theorem c1_counterexample :
    outcomeComputed (cachedSelectorCall false cfg1E (.wmap []) () []).1 = true
    ∧ outcomeComputed (cachedSelectorCall false cfg1E
        (cachedSelectorCall false cfg1E (.wmap []) () []).2 () []).1 = true
    ∧ (cachedSelectorCall false cfg1E (.wmap []) () []).1
        = .err .weakMapKeyError true := by
  decide

/-- Selector configuration used to instantiate C2. -/
def cfg2W : SelectorConfig Unit :=
  ⟨fun _ _ => [JSVal.ref .obj 0], fun _ _ => JSVal.num 7, KeyDerivation.defaultKey⟩

/-- C2, amended: in development mode with the default (argument-joining)
key derivation, a call fails with `CacheKeyError` exactly when some extra
argument satisfies `isObject` (i.e. is an object or an array; function
arguments do NOT trigger the check, because `typeof` a function is not
`'object'`), and such a failing call leaves the cache tree untouched and
does not invoke the computation function; with a caller-supplied key
derivation or in production mode the check never fires. -/
theorem c2_dev_default_key_guard {S : Type} (dev : Bool) (cfg : SelectorConfig S)
    (cache : CacheNode) (s : S) (args : List JSVal) :
    ((∃ b, (cachedSelectorCall dev cfg cache s args).1 = .err .cacheKeyError b) ↔
        devKeyGuard dev cfg.keyDerivation args = true)
    ∧ (devKeyGuard dev cfg.keyDerivation args = true →
        cachedSelectorCall dev cfg cache s args = (.err .cacheKeyError false, cache)) := by
  constructor
  · constructor
    · rintro ⟨b, hb⟩
      cases hg : devKeyGuard dev cfg.keyDerivation args with
      | true => rfl
      | false =>
        rw [cachedSelectorCall_guard_false dev cfg cache s args hg] at hb
        exact absurd hb (callCore_not_cacheKey _ _ _ _ b)
    · intro hg
      exact ⟨false, by rw [cachedSelectorCall_guard_true dev cfg cache s args hg]⟩
  · intro hg
    exact cachedSelectorCall_guard_true dev cfg cache s args hg

/-- C2 witness: in development mode with the default key derivation, an
array-valued extra argument makes the call fail with `CacheKeyError`,
leaving the cache untouched and the computation function uninvoked. -/
theorem c2_dev_default_key_guard_witness :
    cachedSelectorCall true cfg2W (.wmap []) () [JSVal.ref .arr 3]
      = (.err .cacheKeyError false, .wmap []) :=
  (c2_dev_default_key_guard true cfg2W (.wmap []) () [JSVal.ref .arr 3]).2 (by decide)

/-- C2 counterexample: a function-valued extra argument is a
reference-typed value, yet in development mode with the default key
derivation the call does not fail with `CacheKeyError`: `isObject` tests
`typeof o === 'object'`, which is false for functions, so the call
proceeds, invokes the computation function and succeeds. -/
theorem c2_counterexample :
    (cachedSelectorCall true cfg2W (.wmap []) () [JSVal.ref .fn 5]).1
      = .ok (JSVal.num 7) true := by
  decide

/-- Selector configuration used to instantiate C3: a valid object
dependent followed by the invalid primitive dependent 5. -/
def cfg3W : SelectorConfig Unit :=
  ⟨fun _ _ => [JSVal.ref .obj 0, JSVal.num 5], fun _ _ => JSVal.num 1, KeyDerivation.defaultKey⟩

/-- Selector configuration whose dependents contain only the invalid
primitive 5, used for the C3 counterexample. -/
def cfg3E : SelectorConfig Unit :=
  ⟨fun _ _ => [JSVal.num 5], fun _ _ => JSVal.num 1, KeyDerivation.defaultKey⟩

/-- C3, amended: for every call that is not first rejected by the
development-mode default-key check on extra arguments, if the dependents
sequence contains a non-nullish primitive, with `i` the first such
position, the call fails with `InvalidDependentKey` in every build mode
(the check in `insertDependentKey` is not guarded by the environment),
the computation function is not invoked, and the resulting cache is
exactly the original cache with the (possibly freshly created, empty)
weak levels along dependents `0..i-1`: no entry is populated at position
`i` or later and no leaf entry is written. -/
theorem c3_invalid_dependent_key {S : Type} (dev : Bool) (cfg : SelectorConfig S)
    (cache : CacheNode) (s : S) (args : List JSVal) (i : Nat)
    (hguard : devKeyGuard dev cfg.keyDerivation args = false)
    (hlen : i < (cfg.getDependents s args).length)
    (hbad : validDepKey ((cfg.getDependents s args).getD i .null) = false)
    (hpre : ∀ j, j < i → validDepKey ((cfg.getDependents s args).getD j .null) = true) :
    cachedSelectorCall dev cfg cache s args
      = (.err .invalidDependentKey false,
          buildLevels cache ((cfg.getDependents s args).take i)) := by
  rw [cachedSelectorCall_guard_false dev cfg cache s args hguard]
  exact callCore_invalid _ _ _ cache i hlen hbad hpre

/-- C3 witness: dependents `[object, 5]` fail at position 1 in production
mode; the level for position 0 is created and remains, and no leaf entry
is written. -/
theorem c3_invalid_dependent_key_witness :
    cachedSelectorCall false cfg3W (.wmap []) () []
      = (.err .invalidDependentKey false, buildLevels (.wmap []) [JSVal.ref .obj 0]) :=
  c3_invalid_dependent_key false cfg3W (.wmap []) () [] 1
    (by decide) (by decide) (by decide) (by decide)

/-- C3 counterexample: a call whose dependents contain the non-nullish
primitive 5 does NOT always fail with `InvalidDependentKey`: in
development mode with the default key derivation and an object-valued
extra argument, the development-mode check fires first and the call fails
with the `CacheKeyError` instead. -/
theorem c3_counterexample :
    (cachedSelectorCall true cfg3E (.wmap []) () [JSVal.ref .obj 1]).1
        = .err .cacheKeyError false
    ∧ (cachedSelectorCall true cfg3E (.wmap []) () [JSVal.ref .obj 1]).1
        ≠ .err .invalidDependentKey false
    ∧ (cachedSelectorCall true cfg3E (.wmap []) () [JSVal.ref .obj 1]).1
        ≠ .err .invalidDependentKey true := by
  decide

/-- Selector configuration used to instantiate C4: the dependent is
`null` in one state and `undefined` in the other. -/
def cfg4W : SelectorConfig Bool :=
  ⟨fun st _ => [if st then JSVal.null else JSVal.undef],
    fun _ _ => JSVal.num 9, KeyDerivation.defaultKey⟩

/-- C4: for two otherwise-identical calls (same extra arguments) whose
dependents sequences agree up to replacing `null` by `undefined` at any
positions (both are substituted by the canonical `NULLISH_KEY` sentinel),
the tree walk is indistinguishable — for any computed value, key and
starting node the walk produces the same outcome and the same tree — so
the calls resolve to the same cache branch, and whenever the first call
returns a Result, the second call returns that identical stored Result
without invoking the computation function. -/
theorem c4_nullish_normalization {S : Type} (dev : Bool) (cfg : SelectorConfig S)
    (cache : CacheNode) (s s' : S) (args : List JSVal) (v : JSVal) (b : Bool)
    (hdeps : depsEquiv (cfg.getDependents s args) (cfg.getDependents s' args) = true) :
    (∀ (c : JSVal) (key : String) (node : CacheNode),
        callCore c key node (cfg.getDependents s args)
          = callCore c key node (cfg.getDependents s' args))
    ∧ ((cachedSelectorCall dev cfg cache s args).1 = .ok v b →
        (cachedSelectorCall dev cfg (cachedSelectorCall dev cfg cache s args).2 s' args).1
          = .ok v false) := by
  constructor
  · intro c key node
    exact callCore_depsEquiv c key _ _ node hdeps
  · intro h1
    have hg : devKeyGuard dev cfg.keyDerivation args = false :=
      cachedSelectorCall_ok_guard dev cfg cache s args v b h1
    rw [cachedSelectorCall_guard_false dev cfg cache s args hg] at h1
    rw [cachedSelectorCall_guard_false dev cfg cache s args hg,
      cachedSelectorCall_guard_false dev cfg _ s' args hg]
    rw [callCore_depsEquiv _ _ _ _ _ (depsEquiv_symm _ _ hdeps)]
    exact callCore_hit _ _ _ _ cache v b h1

/-- C4 witness: a call with dependent `[null]` stores 9; the otherwise
identical call with dependent `[undefined]` returns the same stored
Result without recomputation. -/
theorem c4_nullish_normalization_witness :
    (cachedSelectorCall false cfg4W
        (cachedSelectorCall false cfg4W (.wmap []) true []).2 false []).1
      = .ok (JSVal.num 9) false :=
  (c4_nullish_normalization false cfg4W (.wmap []) true false [] (JSVal.num 9) true
    (by decide)).2 (by decide)

/-- Selector configuration used to instantiate C5. -/
def cfg5W : SelectorConfig Unit :=
  ⟨fun _ _ => [JSVal.ref .obj 0], fun _ _ => JSVal.num 3, KeyDerivation.defaultKey⟩

/-- C5: `clearCache` replaces the entire root cache with a new empty
`WeakMap` (a total operation with no failure mode and no return value in
the source), it is idempotent, and after clearing, a call whose
dependents and extra arguments were just successfully cached invokes the
computation function again (computed flag `true`, with the freshly
computed value) instead of returning the old stored Result. -/
theorem c5_clear_cache {S : Type} (dev : Bool) (cfg : SelectorConfig S)
    (cache : CacheNode) (s : S) (args : List JSVal) (v : JSVal) (b : Bool)
    (hroot : isWMap cache = true)
    (h1 : (cachedSelectorCall dev cfg cache s args).1 = .ok v b) :
    clearCache ((cachedSelectorCall dev cfg cache s args).2) = .wmap []
    ∧ clearCache (clearCache ((cachedSelectorCall dev cfg cache s args).2))
        = clearCache ((cachedSelectorCall dev cfg cache s args).2)
    ∧ (cachedSelectorCall dev cfg
          (clearCache ((cachedSelectorCall dev cfg cache s args).2)) s args).1
        = .ok (cfg.selector (cfg.getDependents s args) args) true := by
  have hg : devKeyGuard dev cfg.keyDerivation args = false :=
    cachedSelectorCall_ok_guard dev cfg cache s args v b h1
  refine ⟨rfl, rfl, ?_⟩
  rw [cachedSelectorCall_guard_false dev cfg _ s args hg]
  rw [cachedSelectorCall_guard_false dev cfg cache s args hg] at h1
  have hvalid : (cfg.getDependents s args).all validDepKey = true :=
    callCore_ok_valid _ _ _ _ _ _ h1
  have hne : cfg.getDependents s args ≠ [] := by
    intro hnil
    cases cache with
    | smap ss os => simp [isWMap] at hroot
    | wmap es =>
      rw [hnil, callCore_nil_wmap] at h1
      simp at h1
  have hfr : freshNode (cfg.getDependents s args) = CacheNode.wmap [] := by
    cases hd : cfg.getDependents s args with
    | nil => exact absurd hd hne
    | cons x xs => simp [freshNode]
  show (callCore _ _ (CacheNode.wmap []) _).1 = _
  rw [← hfr]
  exact callCore_fresh _ _ _ hvalid

/-- C5 witness: after a successful caching call and a `clearCache`, the
same call computes again. -/
theorem c5_clear_cache_witness :
    clearCache ((cachedSelectorCall false cfg5W (.wmap []) () []).2) = .wmap []
    ∧ clearCache (clearCache ((cachedSelectorCall false cfg5W (.wmap []) () []).2))
        = clearCache ((cachedSelectorCall false cfg5W (.wmap []) () []).2)
    ∧ (cachedSelectorCall false cfg5W
          (clearCache ((cachedSelectorCall false cfg5W (.wmap []) () []).2)) () []).1
        = .ok (JSVal.num 3) true :=
  c5_clear_cache false cfg5W (.wmap []) () [] (JSVal.num 3) true (by decide) (by decide)

/-- C6: in development mode, the construction of a cached selector fails
with the `InvalidArgument` error exactly when the dependents function or
the computation function fails the `isFunction` test; in production mode
the check is skipped and construction succeeds regardless of the two
arguments. -/
theorem c6_construction_check (g s : JSVal) :
    treeSelectCheck true g s
      = (if isFunction g && isFunction s then .ok () else .error .invalidArgument)
    ∧ treeSelectCheck false g s = .ok () := by
  constructor
  · cases hg : isFunction g <;> cases hs : isFunction s <;>
      simp [treeSelectCheck, hg, hs]
  · rfl

/-- Selector configuration used to instantiate C7. -/
def cfg7W : SelectorConfig Unit :=
  ⟨fun _ _ => [JSVal.ref .obj 2], fun _ _ => JSVal.num 11, KeyDerivation.defaultKey⟩

/-- Selector configuration with empty dependents used for the C7
counterexample. -/
def cfg7E : SelectorConfig Unit :=
  ⟨fun _ _ => [], fun _ _ => JSVal.num 2, KeyDerivation.defaultKey⟩

/-- C7, amended: under the default key derivation (which joins the
stringified extra arguments with the fixed separator `","`), for every
pair of calls with identical dependents-identity sequences whose raw
extra arguments differ but derive to the same key string, provided the
first call returns a Result successfully and the second call is not
rejected by the development-mode key check, the second call returns the
first call's cached Result without invoking the computation function. -/
theorem c7_leaf_key_collision {S : Type} (dev : Bool) (cfg : SelectorConfig S)
    (cache : CacheNode) (s s' : S) (args args' : List JSVal) (v : JSVal) (b : Bool)
    (hkd : cfg.keyDerivation = KeyDerivation.defaultKey)
    (hargs : args ≠ args')
    (hdeps : cfg.getDependents s args = cfg.getDependents s' args')
    (hkey : defaultGetCacheKey args = defaultGetCacheKey args')
    (hguard' : devKeyGuard dev cfg.keyDerivation args' = false)
    (h1 : (cachedSelectorCall dev cfg cache s args).1 = .ok v b) :
    (cachedSelectorCall dev cfg (cachedSelectorCall dev cfg cache s args).2 s' args').1
      = .ok v false := by
  have hkey' : runKeyDerivation cfg.keyDerivation args
      = runKeyDerivation cfg.keyDerivation args' := by
    rw [hkd]
    exact hkey
  exact cachedSelectorCall_second_hit dev cfg cache s s' args args' v b hdeps hkey' hguard' h1

/-- C7 witness: the raw extra arguments `[1]` (a number) and `["1"]`
(a string) differ but both derive the key string "1" under the default
derivation; the second call returns the first call's stored Result
without recomputation. -/
theorem c7_leaf_key_collision_witness :
    (cachedSelectorCall true cfg7W
        (cachedSelectorCall true cfg7W (.wmap []) () [JSVal.num 1]).2 () [JSVal.str "1"]).1
      = .ok (JSVal.num 11) false :=
  c7_leaf_key_collision true cfg7W (.wmap []) () () [JSVal.num 1] [JSVal.str "1"]
    (JSVal.num 11) true rfl (by decide) rfl (by decide) (by decide) (by decide)

/-- C7 counterexample: with an empty dependents sequence the leaf table
is the root `WeakMap`, so even though the differing raw arguments `[1]`
and `["1"]` derive the same key string, the second call does invoke the
computation function (and then fails to store), contradicting the claimed
"returns the first call's cached Result without invoking the computation
function". -/
theorem c7_counterexample :
    defaultGetCacheKey [JSVal.num 1] = defaultGetCacheKey [JSVal.str "1"]
    ∧ [JSVal.num 1] ≠ [JSVal.str "1"]
    ∧ outcomeComputed (cachedSelectorCall false cfg7E
        (cachedSelectorCall false cfg7E (.wmap []) () [JSVal.num 1]).2 () [JSVal.str "1"]).1
      = true := by
  decide

/-- Selector configuration used to instantiate C8: the dependent object
identity differs between the two states. -/
def cfg8W : SelectorConfig Bool :=
  ⟨fun st _ => [if st then JSVal.ref .obj 1 else JSVal.ref .obj 2],
    fun _ _ => JSVal.num 5, KeyDerivation.defaultKey⟩

/-- C8: starting from an empty root cache, if a first call succeeds and a
second call's dependents sequence diverges from the first's at position
`p` (same walk keys before `p`, different walk key at `p` — in particular
a different object identity), the second call cannot share the first
call's cached Result: it invokes the computation function and returns its
own freshly computed value, even when the extra arguments (and hence the
leaf key strings) are identical. -/
theorem c8_tree_isolation {S : Type} (dev : Bool) (cfg : SelectorConfig S)
    (s s' : S) (args args' : List JSVal) (v : JSVal) (b : Bool) (p : Nat)
    (h1 : (cachedSelectorCall dev cfg (.wmap []) s args).1 = .ok v b)
    (hguard' : devKeyGuard dev cfg.keyDerivation args' = false)
    (hvalid' : (cfg.getDependents s' args').all validDepKey = true)
    (hlen : (cfg.getDependents s args).length = (cfg.getDependents s' args').length)
    (hp : p < (cfg.getDependents s' args').length)
    (hpre : ∀ j, j < p → toWKey ((cfg.getDependents s args).getD j .null)
        = toWKey ((cfg.getDependents s' args').getD j .null))
    (hdiff : toWKey ((cfg.getDependents s args).getD p .null)
        ≠ toWKey ((cfg.getDependents s' args').getD p .null)) :
    (cachedSelectorCall dev cfg (cachedSelectorCall dev cfg (.wmap []) s args).2 s' args').1
      = .ok (cfg.selector (cfg.getDependents s' args') args') true := by
  have hg : devKeyGuard dev cfg.keyDerivation args = false :=
    cachedSelectorCall_ok_guard dev cfg (.wmap []) s args v b h1
  rw [cachedSelectorCall_guard_false dev cfg (.wmap []) s args hg] at h1
  rw [cachedSelectorCall_guard_false dev cfg (.wmap []) s args hg,
    cachedSelectorCall_guard_false dev cfg _ s' args' hguard']
  have hvalid1 : (cfg.getDependents s args).all validDepKey = true :=
    callCore_ok_valid _ _ _ _ _ _ h1
  exact callCore_divergent _ _ _ _ p _ _ hvalid1 hvalid' hlen hp hpre hdiff

/-- C8 witness: two calls whose single dependent is a different object
identity never share a Result even with identical (empty) extra
arguments: the second call recomputes. -/
theorem c8_tree_isolation_witness :
    (cachedSelectorCall false cfg8W
        (cachedSelectorCall false cfg8W (.wmap []) true []).2 false []).1
      = .ok (JSVal.num 5) true :=
  c8_tree_isolation false cfg8W true false [] [] (JSVal.num 5) true 0
    (by decide) (by decide) (by decide) (by decide) (by decide) (by decide) (by decide)

/-- Selector configuration used to instantiate C9: two dependents (a
nullish one and an object), hence a two-level tree. -/
def cfg9W : SelectorConfig Unit :=
  ⟨fun _ _ => [JSVal.null, JSVal.ref .obj 4], fun _ _ => JSVal.num 6, KeyDerivation.defaultKey⟩

/-- C9: the tree-shape invariant.  `depthOk n` states that below the
given node come exactly `n` levels, every level reached at a non-last
dependent position is an identity-keyed weakly-referencing `WeakMap`, and
the level at the last dependent position is a string-keyed
strongly-referencing `Map`.  The invariant holds of the initial root
cache for any positive dependents count, and any call whose (valid)
dependents sequence has length `n` succeeds and preserves it — so after
every successful call the cache tree has exactly `len(dependents)` levels
below the root and every root-to-leaf path has that same length. -/
theorem c9_depth_invariant {S : Type} (dev : Bool) (cfg : SelectorConfig S)
    (cache : CacheNode) (s : S) (args : List JSVal) (n : Nat)
    (hguard : devKeyGuard dev cfg.keyDerivation args = false)
    (hvalid : (cfg.getDependents s args).all validDepKey = true)
    (hlen : (cfg.getDependents s args).length = n)
    (hinv : depthOk n cache = true) :
    (1 ≤ n → depthOk n (CacheNode.wmap []) = true)
    ∧ (∃ v b, (cachedSelectorCall dev cfg cache s args).1 = CallOutcome.ok v b)
    ∧ depthOk n (cachedSelectorCall dev cfg cache s args).2 = true := by
  constructor
  · intro hn
    cases n with
    | zero => simp at hn
    | succ m => simp [depthOk]
  · rw [cachedSelectorCall_guard_false dev cfg cache s args hguard]
    subst hlen
    exact callCore_depth _ _ _ cache hvalid hinv

/-- C9 witness: a selector with two dependents keeps the two-level shape
(a `WeakMap` level, then a leaf `Map`) across a successful call on the
initially empty root. -/
theorem c9_depth_invariant_witness :
    (1 ≤ 2 → depthOk 2 (CacheNode.wmap []) = true)
    ∧ (∃ v b, (cachedSelectorCall false cfg9W (.wmap []) () []).1 = CallOutcome.ok v b)
    ∧ depthOk 2 (cachedSelectorCall false cfg9W (.wmap []) () []).2 = true :=
  c9_depth_invariant false cfg9W (.wmap []) () [] 2
    (by decide) (by decide) (by decide) (by decide)

/-- Selector configuration with an empty dependents sequence used to
instantiate C10. -/
def cfg10W : SelectorConfig Unit :=
  ⟨fun _ _ => [], fun _ _ => JSVal.num 8, KeyDerivation.defaultKey⟩

/-- C10: when the dependents function returns the empty sequence, the
reduce over the dependents returns the root `WeakMap` itself as the leaf
table.  `WeakMap.has` with a string key is always `false`, so every call
that reaches the cache is a miss: it invokes the computation function and
then fails with a `TypeError` when storing the Result under a string key
in the `WeakMap`, leaving the cache unchanged; such a cached selector can
never successfully return a value in any build mode. -/
theorem c10_empty_dependents {S : Type} (dev : Bool) (cfg : SelectorConfig S)
    (cache : CacheNode) (s : S) (args : List JSVal)
    (hroot : isWMap cache = true)
    (hempty : cfg.getDependents s args = []) :
    (∀ v b, (cachedSelectorCall dev cfg cache s args).1 ≠ CallOutcome.ok v b)
    ∧ (devKeyGuard dev cfg.keyDerivation args = false →
        cachedSelectorCall dev cfg cache s args = (.err .weakMapKeyError true, cache)) := by
  cases cache with
  | smap ss os => simp [isWMap] at hroot
  | wmap es =>
    have hpart : devKeyGuard dev cfg.keyDerivation args = false →
        cachedSelectorCall dev cfg (.wmap es) s args
          = (.err .weakMapKeyError true, .wmap es) := by
      intro hg
      rw [cachedSelectorCall_guard_false dev cfg _ s args hg, hempty]
      exact callCore_nil_wmap _ _ es
    constructor
    · intro v b hok
      cases hg : devKeyGuard dev cfg.keyDerivation args with
      | true =>
        rw [cachedSelectorCall_guard_true dev cfg _ s args hg] at hok
        simp at hok
      | false =>
        rw [hpart hg] at hok
        simp at hok
    · exact hpart

/-- C10 witness: a concrete empty-dependents selector computes and then
fails with the `WeakMap` key `TypeError`, leaving the root cache
unchanged. -/
theorem c10_empty_dependents_witness :
    cachedSelectorCall true cfg10W (.wmap []) () [JSVal.str "k"]
      = (.err .weakMapKeyError true, .wmap []) :=
  (c10_empty_dependents true cfg10W (.wmap []) () [JSVal.str "k"] (by decide) rfl).2 (by decide)
